import Mathlib

/-!
Verification of the RPC transport in `rpc_client.py` (module `astrbot_plugin_example`).

The development shallowly embeds the transport's data model and operations:

* the wire codec used by the client — `msgpack.packb(..., use_bin_type=True)` /
  `msgpack.unpackb(..., raw=False)` restricted to the value shapes the protocol
  carries (nil, bool, int, str, bin, array, map; float/ext formats are never
  produced by the client and are rejected by the model's decoder);
* the pydantic `CallResponse` model and its validation of inbound payloads;
* the mutable client state (`_reader`, `_writer`, `_req_id`, `_pending`,
  `_reader_task`) and the operations `_reset_connection`, one iteration of
  `_read_loop`, and the register step of `_call_once` (lines 155-160);
* the two-attempt retry loop of `RPCClient.call`;
* the module-level singleton accessor `get_rpc_client`;
* an interleaving model of `RPCClient.connect` for concurrency claims.

Python strings are represented by their UTF-8 byte sequences (`List Nat`),
so "carries exactly this message" is byte-for-byte equality.
-/

/-- ASCII contents of a Python string literal, as its UTF-8 bytes. -/
def asciiBytes (cs : List Char) : List Nat := cs.map Char.toNat

/-- Structured payloads as handled by `msgpack` in `rpc_client.py`: the
result of `model_dump()` on the outbound side and of `unpackb` on the inbound
side.  `str` holds the UTF-8 bytes of a Python `str`; `bin` holds Python
`bytes`.  Maps keep key order (Python dicts preserve insertion order). -/
inductive Msg where
  | nil : Msg
  | bool (b : Bool) : Msg
  | int (n : Int) : Msg
  | str (s : List Nat) : Msg
  | bin (b : List Nat) : Msg
  | arr (xs : List Msg) : Msg
  | map (kvs : List (Msg × Msg)) : Msg

/-- Big-endian base-256 digits of `n`, `w` bytes wide (`int.to_bytes(w, "big")`
without the overflow check). -/
def beBytes : Nat → Nat → List Nat
  | 0, _ => []
  | w + 1, n => beBytes w (n / 256) ++ [n % 256]

/-- Value of a big-endian digit list. -/
def fromBE (ds : List Nat) : Nat := ds.foldl (fun a d => a * 256 + d) 0

/-- `int.to_bytes(w, "big")`: fails (OverflowError) when `n` does not fit. -/
def to_bytes_be (w n : Nat) : Option (List Nat) :=
  if n < 256 ^ w then some (beBytes w n) else none

/-- Read a `w`-byte big-endian unsigned integer from the front of a stream. -/
def readBE (w : Nat) (bs : List Nat) : Option (Nat × List Nat) :=
  if w ≤ bs.length then some (fromBE (bs.take w), bs.drop w) else none

/-- Read exactly `n` raw bytes from the front of a stream. -/
def readN (n : Nat) (bs : List Nat) : Option (List Nat × List Nat) :=
  if n ≤ bs.length then some (bs.take n, bs.drop n) else none

/-- msgpack encoding of a Python int (msgpack-python `packb` format choice). -/
def encInt (n : Int) : List Nat :=
  if 0 ≤ n then
    let m := n.toNat
    if m < 128 then [m]
    else if m < 256 then [0xcc, m]
    else if m < 65536 then 0xcd :: beBytes 2 m
    else if m < 4294967296 then 0xce :: beBytes 4 m
    else 0xcf :: beBytes 8 m
  else
    if -32 ≤ n then [(n + 256).toNat]
    else if -128 ≤ n then [0xd0, (n + 256).toNat]
    else if -32768 ≤ n then 0xd1 :: beBytes 2 (n + 65536).toNat
    else if -2147483648 ≤ n then 0xd2 :: beBytes 4 (n + 4294967296).toNat
    else 0xd3 :: beBytes 8 (n + 18446744073709551616).toNat

/-- msgpack header for a str of `len` bytes (`use_bin_type=True` profile). -/
def encStrHeader (len : Nat) : List Nat :=
  if len < 32 then [0xa0 + len]
  else if len < 256 then [0xd9, len]
  else if len < 65536 then 0xda :: beBytes 2 len
  else 0xdb :: beBytes 4 len

/-- msgpack header for a bin of `len` bytes. -/
def encBinHeader (len : Nat) : List Nat :=
  if len < 256 then [0xc4, len]
  else if len < 65536 then 0xc5 :: beBytes 2 len
  else 0xc6 :: beBytes 4 len

/-- msgpack header for an array of `n` elements. -/
def encArrHeader (n : Nat) : List Nat :=
  if n < 16 then [0x90 + n]
  else if n < 65536 then 0xdc :: beBytes 2 n
  else 0xdd :: beBytes 4 n

/-- msgpack header for a map of `n` pairs. -/
def encMapHeader (n : Nat) : List Nat :=
  if n < 16 then [0x80 + n]
  else if n < 65536 then 0xde :: beBytes 2 n
  else 0xdf :: beBytes 4 n

mutual

/-- `msgpack.packb(v, use_bin_type=True)`. -/
def encodeMsg : Msg → List Nat
  | .nil => [0xc0]
  | .bool false => [0xc2]
  | .bool true => [0xc3]
  | .int n => encInt n
  | .str s => encStrHeader s.length ++ s
  | .bin b => encBinHeader b.length ++ b
  | .arr xs => encArrHeader xs.length ++ encodeList xs
  | .map kvs => encMapHeader kvs.length ++ encodePairs kvs
  termination_by structural m => m

/-- Concatenated encodings of the elements of an array. -/
def encodeList : List Msg → List Nat
  | [] => []
  | x :: xs => encodeMsg x ++ encodeList xs
  termination_by structural xs => xs

/-- Concatenated encodings of the key-value pairs of a map. -/
def encodePairs : List (Msg × Msg) → List Nat
  | [] => []
  | (k, v) :: kvs => encodeMsg k ++ encodeMsg v ++ encodePairs kvs
  termination_by structural kvs => kvs

end

mutual

/-- One-value msgpack parser.  `fuel` is a proof device bounding recursion
depth; every recursive call decreases it, and the top-level entry point
supplies enough for any input (each unit of fuel either consumes an input
byte or closes a container). -/
def parseMsg : Nat → List Nat → Option (Msg × List Nat)
  | 0, _ => none
  | _ + 1, [] => none
  | f + 1, b :: bs =>
    if b < 0x80 then some (.int b, bs)
    else if b < 0x90 then
      (parsePairs f (b - 0x80) bs).map (fun p => (.map p.1, p.2))
    else if b < 0xa0 then
      (parseArr f (b - 0x90) bs).map (fun p => (.arr p.1, p.2))
    else if b < 0xc0 then
      (readN (b - 0xa0) bs).map (fun p => (.str p.1, p.2))
    else if b = 0xc0 then some (.nil, bs)
    else if b = 0xc2 then some (.bool false, bs)
    else if b = 0xc3 then some (.bool true, bs)
    else if b = 0xc4 then do
      let (n, r) ← readBE 1 bs
      let (s, r2) ← readN n r
      pure (.bin s, r2)
    else if b = 0xc5 then do
      let (n, r) ← readBE 2 bs
      let (s, r2) ← readN n r
      pure (.bin s, r2)
    else if b = 0xc6 then do
      let (n, r) ← readBE 4 bs
      let (s, r2) ← readN n r
      pure (.bin s, r2)
    else if b = 0xcc then (readBE 1 bs).map (fun p => (.int p.1, p.2))
    else if b = 0xcd then (readBE 2 bs).map (fun p => (.int p.1, p.2))
    else if b = 0xce then (readBE 4 bs).map (fun p => (.int p.1, p.2))
    else if b = 0xcf then (readBE 8 bs).map (fun p => (.int p.1, p.2))
    else if b = 0xd0 then
      (readBE 1 bs).map (fun p => (.int ((p.1 : Int) - if p.1 < 128 then 0 else 256), p.2))
    else if b = 0xd1 then
      (readBE 2 bs).map (fun p => (.int ((p.1 : Int) - if p.1 < 32768 then 0 else 65536), p.2))
    else if b = 0xd2 then
      (readBE 4 bs).map (fun p =>
        (.int ((p.1 : Int) - if p.1 < 2147483648 then 0 else 4294967296), p.2))
    else if b = 0xd3 then
      (readBE 8 bs).map (fun p =>
        (.int ((p.1 : Int) - if p.1 < 9223372036854775808 then 0
          else 18446744073709551616), p.2))
    else if b = 0xd9 then do
      let (n, r) ← readBE 1 bs
      let (s, r2) ← readN n r
      pure (.str s, r2)
    else if b = 0xda then do
      let (n, r) ← readBE 2 bs
      let (s, r2) ← readN n r
      pure (.str s, r2)
    else if b = 0xdb then do
      let (n, r) ← readBE 4 bs
      let (s, r2) ← readN n r
      pure (.str s, r2)
    else if b = 0xdc then do
      let (n, r) ← readBE 2 bs
      parseArr f n r |>.map (fun p => (.arr p.1, p.2))
    else if b = 0xdd then do
      let (n, r) ← readBE 4 bs
      parseArr f n r |>.map (fun p => (.arr p.1, p.2))
    else if b = 0xde then do
      let (n, r) ← readBE 2 bs
      parsePairs f n r |>.map (fun p => (.map p.1, p.2))
    else if b = 0xdf then do
      let (n, r) ← readBE 4 bs
      parsePairs f n r |>.map (fun p => (.map p.1, p.2))
    else if 0xe0 ≤ b ∧ b < 0x100 then some (.int ((b : Int) - 256), bs)
    else none
  termination_by structural f _ => f

/-- Parse exactly `n` consecutive msgpack values (array elements). -/
def parseArr : Nat → Nat → List Nat → Option (List Msg × List Nat)
  | 0, _, _ => none
  | _ + 1, 0, bs => some ([], bs)
  | f + 1, n + 1, bs => do
    let (x, r) ← parseMsg f bs
    let (xs, r2) ← parseArr f n r
    pure (x :: xs, r2)
  termination_by structural f _ _ => f

/-- Parse exactly `n` consecutive key-value pairs (map entries). -/
def parsePairs : Nat → Nat → List Nat → Option (List (Msg × Msg) × List Nat)
  | 0, _, _ => none
  | _ + 1, 0, bs => some ([], bs)
  | f + 1, n + 1, bs => do
    let (k, r) ← parseMsg f bs
    let (v, r2) ← parseMsg f r
    let (kvs, r3) ← parsePairs f n r2
    pure ((k, v) :: kvs, r3)
  termination_by structural f _ _ => f

end

/-- `msgpack.packb(v, use_bin_type=True)` — the serializer of line 169. -/
def packb (v : Msg) : List Nat := encodeMsg v

/-- `msgpack.unpackb(bs, raw=False)` — the parser applied to inbound frame
bodies (lines 106-109).  Rejects trailing bytes (msgpack `ExtraData`). -/
def unpackb (bs : List Nat) : Option Msg :=
  match parseMsg (2 * bs.length + 1) bs with
  | some (v, []) => some v
  | _ => none

mutual

/-- Payload fits the ranges `msgpack.packb` can serialize: ints in the
signed/unsigned 64-bit window, str/bin/array/map sizes below `2^32`, and
byte components that are actual bytes. -/
def wfMsg : Msg → Bool
  | .nil => true
  | .bool _ => true
  | .int n => decide (-9223372036854775808 ≤ n) && decide (n < 18446744073709551616)
  | .str s => decide (s.length < 4294967296) && s.all (· < 256)
  | .bin b => decide (b.length < 4294967296) && b.all (· < 256)
  | .arr xs => decide (xs.length < 4294967296) && wfList xs
  | .map kvs => decide (kvs.length < 4294967296) && wfPairs kvs
  termination_by structural m => m

/-- All array elements well formed. -/
def wfList : List Msg → Bool
  | [] => true
  | x :: xs => wfMsg x && wfList xs
  termination_by structural xs => xs

/-- All map keys and values well formed. -/
def wfPairs : List (Msg × Msg) → Bool
  | [] => true
  | (k, v) :: kvs => wfMsg k && wfMsg v && wfPairs kvs
  termination_by structural kvs => kvs

end

/-- Python exception values relevant to `rpc_client.py`. -/
inductive PyExc where
  | brokenPipe                      -- BrokenPipeError (write on a closed socket)
  | connectionRefused               -- ConnectionRefusedError from open_unix_connection
  | fileNotFound                    -- FileNotFoundError: socket path missing
  | incompleteRead                  -- asyncio.IncompleteReadError (an EOFError)
  | runtimeError (msg : List Nat)   -- RuntimeError carrying a message
  | validationError                 -- pydantic ValidationError / TypeError
  deriving DecidableEq

/-- The filter of `except (BrokenPipeError, RuntimeError)` in `RPCClient.call`
(line 137).  `ConnectionRefusedError` and `FileNotFoundError` are `OSError`
subclasses and `asyncio.IncompleteReadError` is an `EOFError` subclass, so
none of them is caught. -/
def isCaughtByCall : PyExc → Bool
  | .brokenPipe => true
  | .runtimeError _ => true
  | _ => false

/-- `BaseResponse` (lines 37-41): a pydantic model with no declared fields;
validating a mapping against it ignores every (unknown) field. -/
structure BaseResponse where
  deriving DecidableEq

/-- The pydantic `CallResponse` model (lines 47-60).  All four fields are
declared with `Field(...)` and are therefore required; `data` admits a
mapping (validated into `BaseResponse`) or `None`. -/
structure CallResponse where
  ok : Bool
  unified_msg_origin : List Nat
  data : Option BaseResponse
  error_message : List Nat
  deriving DecidableEq

/-- Key equality for Python dict lookup on decoded msgpack maps: field names
are strings, and only string keys can match them. -/
def keyEq : Msg → Msg → Bool
  | .str a, .str b => a == b
  | _, _ => false

/-- Python dict lookup on the decoded key-value list.  `unpackb` builds a
dict, in which for duplicate keys the last occurrence wins. -/
def dictGet (kvs : List (Msg × Msg)) (k : Msg) : Option Msg :=
  (kvs.reverse.find? (fun p => keyEq p.1 k)).map (·.2)

/-- The field name `ok` as a msgpack key. -/
def keyOk : Msg := .str (asciiBytes ['o', 'k'])

/-- The field name `unified_msg_origin` as a msgpack key. -/
def keyUnifiedMsgOrigin : Msg :=
  .str (asciiBytes ['u', 'n', 'i', 'f', 'i', 'e', 'd', '_', 'm', 's', 'g', '_',
    'o', 'r', 'i', 'g', 'i', 'n'])

/-- The field name `data` as a msgpack key. -/
def keyData : Msg := .str (asciiBytes ['d', 'a', 't', 'a'])

/-- The field name `error_message` as a msgpack key. -/
def keyErrorMessage : Msg :=
  .str (asciiBytes ['e', 'r', 'r', 'o', 'r', '_', 'm', 'e', 's', 's', 'a', 'g', 'e'])

/-- pydantic validation of a `bool` field from a decoded value. -/
def asBool : Msg → Option Bool
  | .bool b => some b
  | _ => none

/-- pydantic validation of a `str` field from a decoded value. -/
def asStr : Msg → Option (List Nat)
  | .str s => some s
  | _ => none

/-- pydantic validation of the `data : BaseResponse | None` field: `None`
means no data; a mapping validates into the field-less `BaseResponse`;
anything else fails validation. -/
def validateData : Msg → Option (Option BaseResponse)
  | .nil => some none
  | .map _ => some (some ⟨⟩)
  | _ => none

/-- `CallResponse(**data)` (line 180): requires a string-keyed mapping
providing all four required fields with admissible values; unknown extra
fields are ignored (pydantic default `extra="ignore"`).  `none` models the
raised `TypeError`/`ValidationError`. -/
def parseCallResponse (d : Msg) : Option CallResponse :=
  match d with
  | .map kvs => do
    let okv ← dictGet kvs keyOk
    let ok ← asBool okv
    let umv ← dictGet kvs keyUnifiedMsgOrigin
    let um ← asStr umv
    let dv ← dictGet kvs keyData
    let dd ← validateData dv
    let emv ← dictGet kvs keyErrorMessage
    let em ← asStr emv
    pure ⟨ok, um, dd, em⟩
  | _ => none

/-- Outcome held by a resolved `asyncio.Future` from the pending table. -/
inductive FutOutcome where
  | success (data : Msg)   -- fut.set_result(data) in _read_loop
  | failure (e : PyExc)    -- fut.set_exception(e) in _reset_connection

namespace RPCClient

/-- The mutable attributes of an `RPCClient` (lines 64-74), together with a
store of the `asyncio.Future` objects the pending table refers to (futures
are heap objects; the store index is the future's identity; `none` means
not done).  `readerTaskCancelled` records whether `Task.cancel()` was ever
invoked on the current reader task — no code path in `rpc_client.py` does. -/
structure ConnState where
  reader : Bool                       -- self._reader is not None
  writer : Bool                       -- self._writer is not None
  req_id : Nat                        -- self._req_id
  pending : List (Nat × Nat)          -- self._pending: req_id -> future index
  futures : List (Option FutOutcome)  -- future store
  readerTask : Bool                   -- self._reader_task is not None
  readerTaskCancelled : Bool

end RPCClient

namespace RPCClient

/-- Observable side effects of the state operations. -/
inductive Action where
  | closeWriter                         -- self._writer.close()
  | cancelReaderTask                    -- self._reader_task.cancel()
  | failFuture (fid : Nat) (e : PyExc)  -- fut.set_exception(e)
  | setResult (fid : Nat)               -- fut.set_result(data)
  deriving DecidableEq

end RPCClient

namespace RPCClient

/-- Message of the fallback `RuntimeError("connection reset")` (line 91). -/
def connectionResetMsg : List Nat :=
  asciiBytes ['c', 'o', 'n', 'n', 'e', 'c', 't', 'i', 'o', 'n', ' ',
    'r', 'e', 's', 'e', 't']

end RPCClient

namespace RPCClient

/-- The loop body of `_reset_connection` (lines 89-91): `if not fut.done():
fut.set_exception(cause)` for one pending entry, threading the future store
and the action log. -/
def failStep (cause : PyExc) (acc : List (Option FutOutcome) × List Action)
    (p : Nat × Nat) : List (Option FutOutcome) × List Action :=
  match acc.1[p.2]? with
  | some none => (acc.1.set p.2 (some (.failure cause)), acc.2 ++ [.failFuture p.2 cause])
  | _ => acc

end RPCClient

namespace RPCClient

/-- `RPCClient._reset_connection(exc)` (lines 85-96): close the writer if
present; for each pending future that is not done, set its exception to
`exc or RuntimeError("connection reset")`; clear the pending table; drop
the reader, writer and reader-task references.  The reader task is not
cancelled — only its reference is dropped. -/
def reset_connection (exc : Option PyExc) (s : ConnState) : ConnState × List Action :=
  let closeLog : List Action := if s.writer then [.closeWriter] else []
  let cause := exc.getD (.runtimeError connectionResetMsg)
  let r := s.pending.foldl (failStep cause) (s.futures, [])
  ({ s with futures := r.1, pending := [], reader := false, writer := false,
            readerTask := false }, closeLog ++ r.2)

end RPCClient

namespace RPCClient

/-- How one iteration of `_read_loop` ends. -/
inductive LoopRes where
  | next        -- the loop continues with the next frame
  | resetExit   -- IncompleteReadError caught: reset performed, loop returns
  | crash       -- an uncaught exception: the task dies, no handler runs
  deriving DecidableEq

end RPCClient

namespace RPCClient

/-- One input to an iteration of `_read_loop`: either a complete frame (the
two 4-byte header reads and the exact-length payload read all succeeded),
or an `IncompleteReadError` from `readexactly` (peer closed mid-frame). -/
inductive ReadEvent where
  | frame (req_id : Nat) (payload : List Nat)
  | eof

end RPCClient

namespace RPCClient

/-- One iteration of `RPCClient._read_loop` (lines 98-116).  The payload is
decoded with `unpackb`; a decode failure is not caught by the
`except asyncio.IncompleteReadError` handler, so the task dies with no state
change (`crash`).  On success, `self._pending.pop(req_id, None)` removes the
entry, and the future, if present and not done, is resolved with the decoded
data.  On `eof` the handler calls `_reset_connection(e)` and the loop ends. -/
def read_loop_step (s : ConnState) : ReadEvent → ConnState × List Action × LoopRes
  | .frame rid pay =>
    match unpackb pay with
    | none => (s, [], .crash)
    | some d =>
      match (s.pending.find? (fun p => p.1 == rid)).map (·.2) with
      | none => (s, [], .next)
      | some fid =>
        let s1 := { s with pending := s.pending.filter (fun p => !(p.1 == rid)) }
        match s1.futures[fid]? with
        | some none =>
          ({ s1 with futures := s1.futures.set fid (some (.success d)) },
            [.setResult fid], .next)
        | _ => (s1, [], .next)
  | .eof =>
    let r := reset_connection (some .incompleteRead) s
    (r.1, r.2, .resetExit)

end RPCClient

namespace RPCClient

/-- Python dict assignment `d[k] = v`: overwrite in place, or append. -/
def pendInsert (pend : List (Nat × Nat)) (k v : Nat) : List (Nat × Nat) :=
  if pend.any (fun p => p.1 == k) then
    pend.map (fun p => if p.1 == k then (k, v) else p)
  else pend ++ [(k, v)]

end RPCClient

namespace RPCClient

/-- Correlation-ID allocation in `_call_once` (lines 155-156):
`self._req_id += 1; req_id = self._req_id` — a plain increment. -/
def nextReqId (s : ConnState) : Nat := s.req_id + 1

end RPCClient

namespace RPCClient

/-- Modelled from the spec's words, for comparison with `nextReqId` (C4):
"monotonically increasing, wrapping at the width boundary" — an allocation
that wraps at `2^32`. -/
def nextIdWrapSpec (s : ConnState) : Nat := (s.req_id + 1) % 4294967296

end RPCClient

namespace RPCClient

/-- The registration step of `_call_once` (lines 155-160): allocate the next
correlation ID, create a fresh not-done future, and put it in the pending
table. -/
def register_step (s : ConnState) : ConnState :=
  { s with req_id := nextReqId s,
           futures := s.futures ++ [none],
           pending := pendInsert s.pending (nextReqId s) s.futures.length }

end RPCClient

namespace RPCClient

/-- `register_step` iterated `n` times: `n` calls issued before any reply. -/
def registerN : Nat → ConnState → ConnState
  | 0, s => s
  | n + 1, s => registerN n (register_step s)

end RPCClient

namespace RPCClient

/-- The correlation IDs `registerN n` hands out, in allocation order. -/
def newIds (s : ConnState) (n : Nat) : List Nat :=
  (List.range n).map (fun k => s.req_id + k + 1)

end RPCClient

namespace RPCClient

/-- The code paths that mutate the pending table or resolve its futures:
the register step of `_call_once`, one `_read_loop` iteration, and
`_reset_connection` as called from `call`'s except-handler. -/
inductive PendingOp where
  | register
  | readEvent (ev : ReadEvent)
  | resetCall (c : PyExc)

end RPCClient

namespace RPCClient

/-- Apply one pending-table operation to the state. -/
def applyOp : PendingOp → ConnState → ConnState
  | .register, s => register_step s
  | .readEvent ev, s => (read_loop_step s ev).1
  | .resetCall c, s => (reset_connection (some c) s).1

end RPCClient

namespace RPCClient

/-- The environment's resolution of one attempt of `call`: which transport
step fails with which exception, or the decoded payload the attempt's future
is resolved with. -/
inductive AttemptEnv where
  | connectRaises (e : PyExc)  -- await self.connect() raises
  | sendRaises (e : PyExc)     -- writer.write / writer.drain raises
  | awaitRaises (e : PyExc)    -- await future raises (the future was failed)
  | delivers (data : Msg)      -- the read loop resolved the future

end RPCClient

namespace RPCClient

/-- One attempt — `connect()` plus `_call_once` (lines 144-184).  The
transport steps are resolved by the environment; the response processing of
lines 178-184 is modelled exactly: `CallResponse(**data)` (failure raises,
modelled `validationError`), then `ok=false` raises
`RuntimeError(resp.error_message)`, else `resp_model.model_validate` is
applied to `resp.data`. -/
def call_once {R : Type} (validate : Option BaseResponse → Except PyExc R)
    (env : AttemptEnv) : Except PyExc R :=
  match env with
  | .connectRaises e => .error e
  | .sendRaises e => .error e
  | .awaitRaises e => .error e
  | .delivers d =>
    match parseCallResponse d with
    | none => .error .validationError
    | some resp =>
      if resp.ok then validate resp.data
      else .error (.runtimeError resp.error_message)

end RPCClient

namespace RPCClient

/-- Observable trace of one `RPCClient.call` invocation on a client with no
established connection: the surfaced result, the number of loop attempts
(each performs one connection attempt, since a caught failure always resets
the connection first), the `asyncio.sleep` delays performed, and the number
of `_reset_connection` calls made by `call`'s except-handler. -/
structure CallTrace (R : Type) where
  result : Except PyExc R
  attempts : Nat
  sleeps : List Nat
  resetsInCall : Nat

end RPCClient

namespace RPCClient

/-- `RPCClient.call` (lines 118-142): a loop over attempts `(1, 2)`; only
`BrokenPipeError` and `RuntimeError` are caught; a caught error triggers
`_reset_connection(e)`, then either `await asyncio.sleep(5)` and a second
attempt, or — when `attempt == 2` — a re-raise of the caught error.  An
uncaught exception propagates at once.  The final
`raise RuntimeError("RPC server unavailable")` after the loop is
unreachable: attempt 2 always returns or raises. -/
def call {R : Type} (validate : Option BaseResponse → Except PyExc R)
    (env1 env2 : AttemptEnv) : CallTrace R :=
  match call_once validate env1 with
  | .ok r => ⟨.ok r, 1, [], 0⟩
  | .error e =>
    if isCaughtByCall e then
      match call_once validate env2 with
      | .ok r => ⟨.ok r, 2, [5], 1⟩
      | .error e2 =>
        if isCaughtByCall e2 then ⟨.error e2, 2, [5], 2⟩
        else ⟨.error e2, 2, [5], 1⟩
    else ⟨.error e, 1, [], 0⟩

end RPCClient

/-- A trivial `resp_model` validator for evaluating `call` at concrete
inputs on paths that never reach validation. -/
def trivialValidate : Option BaseResponse → Except PyExc Unit :=
  fun _ => .ok ()

/-- An `RPCClient` as far as construction goes (lines 64-65): the
constructor stores the socket path it was given. -/
structure RPCClientInst where
  socket_path : List Nat
  deriving DecidableEq

/-- `get_rpc_client(socket_path)` (lines 190-194), acting on the module
level `__rpc_client_instance` cell: constructs the client only when the
cell is empty; otherwise returns the stored instance, ignoring the
argument.  Result: (returned client, new cell contents). -/
def get_rpc_client (cell : Option RPCClientInst) (socket_path : List Nat) :
    RPCClientInst × Option RPCClientInst :=
  match cell with
  | none => (⟨socket_path⟩, some ⟨socket_path⟩)
  | some c => (c, some c)

namespace RPCClient

/-- Program counter of one coroutine executing `RPCClient.connect`
(lines 76-83).  The `await asyncio.open_unix_connection(...)` between the
`self._reader is not None` check and the spawn of the reader task is a
suspension point at which other coroutines run. -/
inductive ConnectPC where
  | start                    -- about to run the `if self._reader is not None` check
  | opening                  -- passed the check; awaiting open_unix_connection
  | done (openedSocket : Bool)
  deriving DecidableEq

end RPCClient

namespace RPCClient

/-- Two callers concurrently invoking `connect` on one client instance.
`socketsOpened` counts completed `open_unix_connection` calls;
`tasksSpawned` counts `asyncio.create_task(self._read_loop())` calls. -/
structure ConnectSim where
  reader : Bool
  socketsOpened : Nat
  tasksSpawned : Nat
  pcA : ConnectPC
  pcB : ConnectPC
  deriving DecidableEq

end RPCClient

namespace RPCClient

/-- Run one step of caller A (`who = false`) or caller B (`who = true`):
either the liveness check (line 77), or the completion of the socket open
plus the assignments and task spawn (lines 80-83). -/
def connect_step (s : ConnectSim) (who : Bool) : ConnectSim :=
  let pc := if who then s.pcB else s.pcA
  let setPc := fun (s' : ConnectSim) (pc' : ConnectPC) =>
    if who then { s' with pcB := pc' } else { s' with pcA := pc' }
  match pc with
  | .start =>
    if s.reader then setPc s (.done false)
    else setPc s .opening
  | .opening =>
    setPc { s with reader := true, socketsOpened := s.socketsOpened + 1,
                   tasksSpawned := s.tasksSpawned + 1 } (.done true)
  | .done _ => s

end RPCClient

namespace RPCClient

/-- Run `connect` steps under an interleaving schedule. -/
def runConnect (s : ConnectSim) (sched : List Bool) : ConnectSim :=
  sched.foldl connect_step s

end RPCClient

namespace RPCClient

/-- A fresh client: no connection, both callers about to enter `connect`. -/
def connectSimInit : ConnectSim := ⟨false, 0, 0, .start, .start⟩

end RPCClient

/-- The bytes of the Python string `"module not found"`. -/
def moduleNotFoundMsg : List Nat :=
  asciiBytes ['m', 'o', 'd', 'u', 'l', 'e', ' ', 'n', 'o', 't', ' ',
    'f', 'o', 'u', 'n', 'd']

/-- A backend reply `{ok: false, unified_msg_origin: um, data: {},
error_message: em}` as decoded by the read loop. -/
def okFalseResponse (um em : List Nat) : Msg :=
  .map [(keyOk, .bool false), (keyUnifiedMsgOrigin, .str um),
    (keyData, .map []), (keyErrorMessage, .str em)]

/-- A connected client with one in-flight call (correlation ID 1, future 0). -/
def oneInFlight : RPCClient.ConnState :=
  ⟨true, true, 1, [(1, 0)], [none], true, false⟩

/-- A connected client with two in-flight calls. -/
def twoInFlight : RPCClient.ConnState :=
  ⟨true, true, 2, [(1, 0), (2, 1)], [none, none], true, false⟩

/-- A connected client whose counter sits just below the 32-bit boundary. -/
def atWidthBoundary : RPCClient.ConnState :=
  ⟨false, false, 4294967295, [], [], false, false⟩

/-- A connected client with two in-flight calls and `_req_id = 3`. -/
def twoInFlightAt3 : RPCClient.ConnState :=
  ⟨true, true, 3, [(2, 0), (3, 1)], [none, none], true, false⟩

/-- A nested sample payload exercising nil, bool, signed and unsigned ints,
str, bin, array and map encodings. -/
def roundTripSample : Msg :=
  .map [(keyOk, .bool true),
    (keyData, .map [(.str (asciiBytes ['r', 'e', 's', 'u', 'l', 't']), .int 4),
      (.str (asciiBytes ['x', 's']),
        .arr [.nil, .bool false, .int 300, .int (-5),
          .str (asciiBytes ['h', 'i']), .bin [0, 255]])]),
    (keyErrorMessage, .str [])]

/-- A client with one in-flight entry whose future is already resolved. -/
def resolvedOne : RPCClient.ConnState :=
  ⟨true, true, 1, [(1, 0)], [some (.failure .brokenPipe)], true, false⟩

mutual

/-- Fuel needed by the parser for one value (a proof device: each recursion
level of the value costs one unit). -/
def needMsg : Msg → Nat
  | .nil => 1
  | .bool _ => 1
  | .int _ => 1
  | .str _ => 1
  | .bin _ => 1
  | .arr xs => needList xs + 1
  | .map kvs => needPairs kvs + 1
  termination_by structural m => m

/-- Fuel needed to parse the elements of an array in sequence. -/
def needList : List Msg → Nat
  | [] => 1
  | x :: xs => max (needMsg x) (needList xs) + 1
  termination_by structural xs => xs

/-- Fuel needed to parse the entries of a map in sequence. -/
def needPairs : List (Msg × Msg) → Nat
  | [] => 1
  | (k, v) :: kvs => max (needMsg k) (max (needMsg v) (needPairs kvs)) + 1
  termination_by structural kvs => kvs

end

theorem beBytes_length (w : Nat) : ∀ n, (beBytes w n).length = w := by
  induction w with
  | zero => intro n; rfl
  | succ w ih => intro n; simp [beBytes, ih]

theorem fromBE_append_single (ds : List Nat) (d : Nat) :
    fromBE (ds ++ [d]) = fromBE ds * 256 + d := by
  simp [fromBE, List.foldl_append]

theorem fromBE_beBytes (w : Nat) : ∀ n, n < 256 ^ w → fromBE (beBytes w n) = n := by
  induction w with
  | zero =>
    intro n h
    simp [pow_zero] at h
    simp [h, beBytes, fromBE]
  | succ w ih =>
    intro n h
    have hdiv : n / 256 < 256 ^ w := by
      rw [Nat.div_lt_iff_lt_mul (by norm_num)]
      calc n < 256 ^ (w + 1) := h
        _ = 256 ^ w * 256 := by ring
    rw [beBytes, fromBE_append_single, ih (n / 256) hdiv]
    omega

theorem readBE_beBytes (w n : Nat) (rest : List Nat) (h : n < 256 ^ w) :
    readBE w (beBytes w n ++ rest) = some (n, rest) := by
  have hl := beBytes_length w n
  have t := List.take_left (beBytes w n) rest
  have d := List.drop_left (beBytes w n) rest
  rw [hl] at t d
  simp [readBE, List.length_append, hl, t, d, fromBE_beBytes w n h]

theorem readBE_one (d : Nat) (rest : List Nat) : readBE 1 (d :: rest) = some (d, rest) := by
  simp [readBE, fromBE]

theorem readN_exact (l rest : List Nat) : readN l.length (l ++ rest) = some (l, rest) := by
  simp [readN, List.take_left, List.drop_left]

theorem needMsg_pos (v : Msg) : 1 ≤ needMsg v := by
  cases v <;> simp [needMsg]

theorem parseMsg_posfix (f b : Nat) (bs : List Nat) (h : b < 128) :
    parseMsg (f + 1) (b :: bs) = some (.int b, bs) := by
  unfold parseMsg
  rw [if_pos h]

theorem parseMsg_negfix (f b : Nat) (bs : List Nat) (h1 : 224 ≤ b) (h2 : b < 256) :
    parseMsg (f + 1) (b :: bs) = some (.int ((b : Int) - 256), bs) := by
  have k1 : ¬(b < 0x80) := by omega
  have k2 : ¬(b < 0x90) := by omega
  have k3 : ¬(b < 0xa0) := by omega
  have k4 : ¬(b < 0xc0) := by omega
  have ne : ∀ m : Nat, m < 224 → ¬(b = m) := fun m hm => by omega
  unfold parseMsg
  rw [if_neg k1, if_neg k2, if_neg k3, if_neg k4,
    if_neg (ne 0xc0 (by norm_num)), if_neg (ne 0xc2 (by norm_num)),
    if_neg (ne 0xc3 (by norm_num)), if_neg (ne 0xc4 (by norm_num)),
    if_neg (ne 0xc5 (by norm_num)), if_neg (ne 0xc6 (by norm_num)),
    if_neg (ne 0xcc (by norm_num)), if_neg (ne 0xcd (by norm_num)),
    if_neg (ne 0xce (by norm_num)), if_neg (ne 0xcf (by norm_num)),
    if_neg (ne 0xd0 (by norm_num)), if_neg (ne 0xd1 (by norm_num)),
    if_neg (ne 0xd2 (by norm_num)), if_neg (ne 0xd3 (by norm_num)),
    if_neg (ne 0xd9 (by norm_num)), if_neg (ne 0xda (by norm_num)),
    if_neg (ne 0xdb (by norm_num)), if_neg (ne 0xdc (by norm_num)),
    if_neg (ne 0xdd (by norm_num)), if_neg (ne 0xde (by norm_num)),
    if_neg (ne 0xdf (by norm_num)), if_pos (show 0xe0 ≤ b ∧ b < 0x100 by omega)]

theorem parseMsg_fixstr (f len : Nat) (bs : List Nat) (h : len < 32) :
    parseMsg (f + 1) ((0xa0 + len) :: bs) =
      (readN len bs).map (fun p => (.str p.1, p.2)) := by
  unfold parseMsg
  rw [if_neg (by omega), if_neg (by omega), if_neg (by omega), if_pos (by omega)]
  have h2 : 0xa0 + len - 0xa0 = len := by omega
  rw [h2]

theorem parseMsg_fixarr (f n : Nat) (bs : List Nat) (h : n < 16) :
    parseMsg (f + 1) ((0x90 + n) :: bs) =
      (parseArr f n bs).map (fun p => (.arr p.1, p.2)) := by
  unfold parseMsg
  rw [if_neg (by omega), if_neg (by omega), if_pos (by omega)]
  have h2 : 0x90 + n - 0x90 = n := by omega
  rw [h2]

theorem parseMsg_fixmap (f n : Nat) (bs : List Nat) (h : n < 16) :
    parseMsg (f + 1) ((0x80 + n) :: bs) =
      (parsePairs f n bs).map (fun p => (.map p.1, p.2)) := by
  unfold parseMsg
  rw [if_neg (by omega), if_pos (by omega)]
  have h2 : 0x80 + n - 0x80 = n := by omega
  rw [h2]

theorem readBE_beBytes_2 (m : Nat) (rest : List Nat) (h : m < 65536) :
    readBE 2 (beBytes 2 m ++ rest) = some (m, rest) :=
  readBE_beBytes 2 m rest (by norm_num; omega)

theorem readBE_beBytes_4 (m : Nat) (rest : List Nat) (h : m < 4294967296) :
    readBE 4 (beBytes 4 m ++ rest) = some (m, rest) :=
  readBE_beBytes 4 m rest (by norm_num; omega)

theorem readBE_beBytes_8 (m : Nat) (rest : List Nat) (h : m < 18446744073709551616) :
    readBE 8 (beBytes 8 m ++ rest) = some (m, rest) :=
  readBE_beBytes 8 m rest (by norm_num; omega)

theorem needList_pos (xs : List Msg) : 1 ≤ needList xs := by
  cases xs <;> simp [needList]

theorem needPairs_pos (kvs : List (Msg × Msg)) : 1 ≤ needPairs kvs := by
  cases kvs with
  | nil => simp [needPairs]
  | cons kv kvs => obtain ⟨k, v⟩ := kv; simp [needPairs]

theorem parseMsg_tag_cc (f : Nat) (bs : List Nat) :
    parseMsg (f + 1) (0xcc :: bs) = (readBE 1 bs).map (fun p => (.int p.1, p.2)) := rfl

theorem parseMsg_tag_cd (f : Nat) (bs : List Nat) :
    parseMsg (f + 1) (0xcd :: bs) = (readBE 2 bs).map (fun p => (.int p.1, p.2)) := rfl

theorem parseMsg_tag_ce (f : Nat) (bs : List Nat) :
    parseMsg (f + 1) (0xce :: bs) = (readBE 4 bs).map (fun p => (.int p.1, p.2)) := rfl

theorem parseMsg_tag_cf (f : Nat) (bs : List Nat) :
    parseMsg (f + 1) (0xcf :: bs) = (readBE 8 bs).map (fun p => (.int p.1, p.2)) := rfl

theorem parseMsg_tag_d0 (f : Nat) (bs : List Nat) :
    parseMsg (f + 1) (0xd0 :: bs) =
      (readBE 1 bs).map (fun p => (.int ((p.1 : Int) - if p.1 < 128 then 0 else 256), p.2)) := rfl

theorem parseMsg_tag_d1 (f : Nat) (bs : List Nat) :
    parseMsg (f + 1) (0xd1 :: bs) =
      (readBE 2 bs).map
        (fun p => (.int ((p.1 : Int) - if p.1 < 32768 then 0 else 65536), p.2)) := rfl

theorem parseMsg_tag_d2 (f : Nat) (bs : List Nat) :
    parseMsg (f + 1) (0xd2 :: bs) =
      (readBE 4 bs).map
        (fun p => (.int ((p.1 : Int) - if p.1 < 2147483648 then 0 else 4294967296), p.2)) := rfl

theorem parseMsg_tag_d3 (f : Nat) (bs : List Nat) :
    parseMsg (f + 1) (0xd3 :: bs) =
      (readBE 8 bs).map
        (fun p => (.int ((p.1 : Int) - if p.1 < 9223372036854775808 then 0
          else 18446744073709551616), p.2)) := rfl

theorem parseMsg_tag_c4 (f : Nat) (bs : List Nat) :
    parseMsg (f + 1) (0xc4 :: bs) =
      (readBE 1 bs).bind (fun p => (readN p.1 p.2).bind (fun q => some (.bin q.1, q.2))) := rfl

theorem parseMsg_tag_c5 (f : Nat) (bs : List Nat) :
    parseMsg (f + 1) (0xc5 :: bs) =
      (readBE 2 bs).bind (fun p => (readN p.1 p.2).bind (fun q => some (.bin q.1, q.2))) := rfl

theorem parseMsg_tag_c6 (f : Nat) (bs : List Nat) :
    parseMsg (f + 1) (0xc6 :: bs) =
      (readBE 4 bs).bind (fun p => (readN p.1 p.2).bind (fun q => some (.bin q.1, q.2))) := rfl

theorem parseMsg_tag_d9 (f : Nat) (bs : List Nat) :
    parseMsg (f + 1) (0xd9 :: bs) =
      (readBE 1 bs).bind (fun p => (readN p.1 p.2).bind (fun q => some (.str q.1, q.2))) := rfl

theorem parseMsg_tag_da (f : Nat) (bs : List Nat) :
    parseMsg (f + 1) (0xda :: bs) =
      (readBE 2 bs).bind (fun p => (readN p.1 p.2).bind (fun q => some (.str q.1, q.2))) := rfl

theorem parseMsg_tag_db (f : Nat) (bs : List Nat) :
    parseMsg (f + 1) (0xdb :: bs) =
      (readBE 4 bs).bind (fun p => (readN p.1 p.2).bind (fun q => some (.str q.1, q.2))) := rfl

theorem parseMsg_tag_dc (f : Nat) (bs : List Nat) :
    parseMsg (f + 1) (0xdc :: bs) =
      (readBE 2 bs).bind (fun p => (parseArr f p.1 p.2).map (fun q => (.arr q.1, q.2))) := rfl

theorem parseMsg_tag_dd (f : Nat) (bs : List Nat) :
    parseMsg (f + 1) (0xdd :: bs) =
      (readBE 4 bs).bind (fun p => (parseArr f p.1 p.2).map (fun q => (.arr q.1, q.2))) := rfl

theorem parseMsg_tag_de (f : Nat) (bs : List Nat) :
    parseMsg (f + 1) (0xde :: bs) =
      (readBE 2 bs).bind (fun p => (parsePairs f p.1 p.2).map (fun q => (.map q.1, q.2))) := rfl

theorem parseMsg_tag_df (f : Nat) (bs : List Nat) :
    parseMsg (f + 1) (0xdf :: bs) =
      (readBE 4 bs).bind (fun p => (parsePairs f p.1 p.2).map (fun q => (.map q.1, q.2))) := rfl

theorem parseArr_cons_step (f n : Nat) (bs r r2 : List Nat) (x : Msg) (xs : List Msg)
    (h1 : parseMsg f bs = some (x, r)) (h2 : parseArr f n r = some (xs, r2)) :
    parseArr (f + 1) (n + 1) bs = some (x :: xs, r2) := by
  rw [parseArr, h1]
  show (parseArr f n r).bind _ = _
  rw [h2]
  rfl

theorem parsePairs_cons_step (f n : Nat) (bs r r2 r3 : List Nat) (k v : Msg)
    (kvs : List (Msg × Msg)) (h1 : parseMsg f bs = some (k, r))
    (h2 : parseMsg f r = some (v, r2)) (h3 : parsePairs f n r2 = some (kvs, r3)) :
    parsePairs (f + 1) (n + 1) bs = some ((k, v) :: kvs, r3) := by
  rw [parsePairs, h1]
  show (parseMsg f r).bind _ = _
  rw [h2]
  show (parsePairs f n r2).bind _ = _
  rw [h3]
  rfl

theorem parse_encode_total : ∀ f : Nat,
    (∀ v rest, wfMsg v = true → needMsg v ≤ f →
        parseMsg f (encodeMsg v ++ rest) = some (v, rest)) ∧
    (∀ xs rest, wfList xs = true → needList xs ≤ f →
        parseArr f xs.length (encodeList xs ++ rest) = some (xs, rest)) ∧
    (∀ kvs rest, wfPairs kvs = true → needPairs kvs ≤ f →
        parsePairs f kvs.length (encodePairs kvs ++ rest) = some (kvs, rest)) := by
  intro f
  induction f using Nat.strong_induction_on with
  | _ f ih =>
  match f with
  | 0 =>
    refine ⟨?_, ?_, ?_⟩
    · intro v _ _ hn
      have := needMsg_pos v
      omega
    · intro xs _ _ hn
      have := needList_pos xs
      omega
    · intro kvs _ _ hn
      have := needPairs_pos kvs
      omega
  | f + 1 =>
    obtain ⟨IHv, IHl, IHp⟩ := ih f (Nat.lt_succ_self f)
    refine ⟨?_, ?_, ?_⟩
    · intro v rest hwf hneed
      cases v with
      | nil => rfl
      | bool b => cases b <;> rfl
      | int n =>
        simp only [wfMsg, Bool.and_eq_true, decide_eq_true_eq] at hwf
        simp only [encodeMsg, encInt]
        split_ifs with h0 h1 h2 h3 h4 h5 h6 h7 h8
        · simp only [List.cons_append, List.nil_append]
          rw [parseMsg_posfix f _ rest h1, Int.toNat_of_nonneg h0]
        · simp only [List.cons_append, List.nil_append]
          rw [parseMsg_tag_cc, readBE_one]
          simp [Int.toNat_of_nonneg h0]
        · simp only [List.cons_append]
          rw [parseMsg_tag_cd, readBE_beBytes_2 _ _ (by omega)]
          simp [Int.toNat_of_nonneg h0]
        · simp only [List.cons_append]
          rw [parseMsg_tag_ce, readBE_beBytes_4 _ _ (by omega)]
          simp [Int.toNat_of_nonneg h0]
        · simp only [List.cons_append]
          rw [parseMsg_tag_cf, readBE_beBytes_8 _ _ (by omega)]
          simp [Int.toNat_of_nonneg h0]
        · simp only [List.cons_append, List.nil_append]
          rw [parseMsg_negfix f _ rest (by omega) (by omega)]
          have he : (((n + 256).toNat : Int) - 256) = n := by omega
          rw [he]
        · simp only [List.cons_append, List.nil_append]
          rw [parseMsg_tag_d0, readBE_one]
          have he : ((((n + 256).toNat : Nat) : Int) -
              if (n + 256).toNat < 128 then 0 else 256) = n := by
            rw [if_neg (by omega)]
            omega
          simp only [Option.map_some']
          rw [he]
        · simp only [List.cons_append]
          rw [parseMsg_tag_d1, readBE_beBytes_2 _ _ (by omega)]
          have he : ((((n + 65536).toNat : Nat) : Int) -
              if (n + 65536).toNat < 32768 then 0 else 65536) = n := by
            rw [if_neg (by omega)]
            omega
          simp only [Option.map_some']
          rw [he]
        · simp only [List.cons_append]
          rw [parseMsg_tag_d2, readBE_beBytes_4 _ _ (by omega)]
          have he : ((((n + 4294967296).toNat : Nat) : Int) -
              if (n + 4294967296).toNat < 2147483648 then 0 else 4294967296) = n := by
            rw [if_neg (by omega)]
            omega
          simp only [Option.map_some']
          rw [he]
        · simp only [List.cons_append]
          rw [parseMsg_tag_d3, readBE_beBytes_8 _ _ (by omega)]
          have he : ((((n + 18446744073709551616).toNat : Nat) : Int) -
              if (n + 18446744073709551616).toNat < 9223372036854775808 then 0
                else 18446744073709551616) = n := by
            rw [if_neg (by omega)]
            omega
          simp only [Option.map_some']
          rw [he]
      | str s =>
        simp only [wfMsg, Bool.and_eq_true, decide_eq_true_eq] at hwf
        simp only [encodeMsg, encStrHeader]
        split_ifs with h1 h2 h3
        · simp only [List.cons_append, List.nil_append, List.append_assoc]
          rw [parseMsg_fixstr f _ _ h1, readN_exact]
          rfl
        · simp only [List.cons_append, List.nil_append, List.append_assoc]
          rw [parseMsg_tag_d9, readBE_one, Option.some_bind, readN_exact]
          rfl
        · simp only [List.cons_append, List.append_assoc]
          rw [parseMsg_tag_da, readBE_beBytes_2 _ _ (by omega), Option.some_bind, readN_exact]
          rfl
        · simp only [List.cons_append, List.append_assoc]
          rw [parseMsg_tag_db, readBE_beBytes_4 _ _ (by omega), Option.some_bind, readN_exact]
          rfl
      | bin b =>
        simp only [wfMsg, Bool.and_eq_true, decide_eq_true_eq] at hwf
        simp only [encodeMsg, encBinHeader]
        split_ifs with h1 h2
        · simp only [List.cons_append, List.nil_append, List.append_assoc]
          rw [parseMsg_tag_c4, readBE_one, Option.some_bind, readN_exact]
          rfl
        · simp only [List.cons_append, List.append_assoc]
          rw [parseMsg_tag_c5, readBE_beBytes_2 _ _ (by omega), Option.some_bind, readN_exact]
          rfl
        · simp only [List.cons_append, List.append_assoc]
          rw [parseMsg_tag_c6, readBE_beBytes_4 _ _ (by omega), Option.some_bind, readN_exact]
          rfl
      | arr xs =>
        simp only [wfMsg, Bool.and_eq_true, decide_eq_true_eq] at hwf
        have hn : needList xs ≤ f := by
          simp only [needMsg] at hneed
          omega
        simp only [encodeMsg, encArrHeader]
        split_ifs with h1 h2
        · simp only [List.cons_append, List.nil_append, List.append_assoc]
          rw [parseMsg_fixarr f _ _ h1, IHl xs rest hwf.2 hn]
          rfl
        · simp only [List.cons_append, List.append_assoc]
          rw [parseMsg_tag_dc, readBE_beBytes_2 _ _ (by omega), Option.some_bind,
            IHl xs rest hwf.2 hn]
          rfl
        · simp only [List.cons_append, List.append_assoc]
          rw [parseMsg_tag_dd, readBE_beBytes_4 _ _ (by omega), Option.some_bind,
            IHl xs rest hwf.2 hn]
          rfl
      | map kvs =>
        simp only [wfMsg, Bool.and_eq_true, decide_eq_true_eq] at hwf
        have hn : needPairs kvs ≤ f := by
          simp only [needMsg] at hneed
          omega
        simp only [encodeMsg, encMapHeader]
        split_ifs with h1 h2
        · simp only [List.cons_append, List.nil_append, List.append_assoc]
          rw [parseMsg_fixmap f _ _ h1, IHp kvs rest hwf.2 hn]
          rfl
        · simp only [List.cons_append, List.append_assoc]
          rw [parseMsg_tag_de, readBE_beBytes_2 _ _ (by omega), Option.some_bind,
            IHp kvs rest hwf.2 hn]
          rfl
        · simp only [List.cons_append, List.append_assoc]
          rw [parseMsg_tag_df, readBE_beBytes_4 _ _ (by omega), Option.some_bind,
            IHp kvs rest hwf.2 hn]
          rfl
    · intro xs rest hwf hneed
      cases xs with
      | nil => rfl
      | cons x xs =>
        simp only [wfList, Bool.and_eq_true] at hwf
        have hn1 : needMsg x ≤ f := by
          simp only [needList] at hneed
          omega
        have hn2 : needList xs ≤ f := by
          simp only [needList] at hneed
          omega
        simp only [encodeList, List.length_cons, List.append_assoc]
        exact parseArr_cons_step f xs.length _ _ _ x xs
          (IHv x _ hwf.1 hn1) (IHl xs rest hwf.2 hn2)
    · intro kvs rest hwf hneed
      cases kvs with
      | nil => rfl
      | cons kv kvs =>
        obtain ⟨k, v⟩ := kv
        simp only [wfPairs, Bool.and_eq_true] at hwf
        have hn1 : needMsg k ≤ f := by
          simp only [needPairs] at hneed
          omega
        have hn2 : needMsg v ≤ f := by
          simp only [needPairs] at hneed
          omega
        have hn3 : needPairs kvs ≤ f := by
          simp only [needPairs] at hneed
          omega
        simp only [encodePairs, List.length_cons, List.append_assoc]
        exact parsePairs_cons_step f kvs.length _ _ _ _ k v kvs
          (IHv k _ hwf.1.1 hn1) (IHv v _ hwf.1.2 hn2) (IHp kvs rest hwf.2 hn3)

theorem encodeMsg_length_pos (v : Msg) : 1 ≤ (encodeMsg v).length := by
  cases v with
  | nil => simp [encodeMsg]
  | bool b => cases b <;> simp [encodeMsg]
  | int n =>
    simp only [encodeMsg, encInt]
    split_ifs <;> simp [beBytes_length]
  | str s =>
    simp only [encodeMsg, encStrHeader]
    split_ifs <;> simp [beBytes_length]
  | bin b =>
    simp only [encodeMsg, encBinHeader]
    split_ifs <;> simp [beBytes_length]
  | arr xs =>
    simp only [encodeMsg, encArrHeader]
    split_ifs <;> simp [beBytes_length]
  | map kvs =>
    simp only [encodeMsg, encMapHeader]
    split_ifs <;> simp [beBytes_length]

theorem encArrHeader_length_pos (n : Nat) : 1 ≤ (encArrHeader n).length := by
  unfold encArrHeader
  split_ifs <;> simp [beBytes_length]

theorem encMapHeader_length_pos (n : Nat) : 1 ≤ (encMapHeader n).length := by
  unfold encMapHeader
  split_ifs <;> simp [beBytes_length]

mutual

theorem needMsg_le_enc : ∀ v : Msg, needMsg v ≤ 2 * (encodeMsg v).length
  | .nil => by simp [needMsg, encodeMsg]
  | .bool b => by cases b <;> simp [needMsg, encodeMsg]
  | .int n => by
    have := encodeMsg_length_pos (.int n)
    simp only [needMsg]
    omega
  | .str s => by
    have := encodeMsg_length_pos (.str s)
    simp only [needMsg]
    omega
  | .bin b => by
    have := encodeMsg_length_pos (.bin b)
    simp only [needMsg]
    omega
  | .arr xs => by
    have h1 := needList_le_enc xs
    have h2 := encArrHeader_length_pos xs.length
    simp only [needMsg, encodeMsg, List.length_append]
    omega
  | .map kvs => by
    have h1 := needPairs_le_enc kvs
    have h2 := encMapHeader_length_pos kvs.length
    simp only [needMsg, encodeMsg, List.length_append]
    omega
  termination_by structural v => v

theorem needList_le_enc : ∀ xs : List Msg, needList xs ≤ 2 * (encodeList xs).length + 1
  | [] => by simp [needList, encodeList]
  | x :: xs => by
    have h1 := needMsg_le_enc x
    have h2 := needList_le_enc xs
    have h3 := encodeMsg_length_pos x
    simp only [needList, encodeList, List.length_append]
    omega
  termination_by structural xs => xs

theorem needPairs_le_enc : ∀ kvs : List (Msg × Msg),
    needPairs kvs ≤ 2 * (encodePairs kvs).length + 1
  | [] => by simp [needPairs, encodePairs]
  | (k, v) :: kvs => by
    have h1 := needMsg_le_enc k
    have h2 := needMsg_le_enc v
    have h3 := needPairs_le_enc kvs
    have h4 := encodeMsg_length_pos k
    have h5 := encodeMsg_length_pos v
    simp only [needPairs, encodePairs, List.length_append]
    omega
  termination_by structural kvs => kvs

end

namespace RPCClient

theorem failStep_length (cause : PyExc) (acc : List (Option FutOutcome) × List Action)
    (p : Nat × Nat) : ((failStep cause acc p).1).length = acc.1.length := by
  unfold failStep
  split <;> simp

end RPCClient

namespace RPCClient

theorem foldl_failStep_resolved (cause : PyExc) (pend : List (Nat × Nat)) :
    ∀ (acc : List (Option FutOutcome) × List Action) (fid : Nat) (v : FutOutcome),
      acc.1[fid]? = some (some v) →
      ((pend.foldl (failStep cause) acc).1)[fid]? = some (some v) := by
  induction pend with
  | nil => intro acc fid v h; exact h
  | cons q rest ih =>
    intro acc fid v h
    rw [List.foldl_cons]
    refine ih (failStep cause acc q) fid v ?_
    unfold failStep
    split
    · rename_i heq
      by_cases hpq : q.2 = fid
      · rw [hpq] at heq
        rw [heq] at h
        exact absurd h (by simp)
      · simpa [List.getElem?_set_ne hpq] using h
    · exact h

end RPCClient

namespace RPCClient

theorem foldl_failStep_no_success (cause : PyExc) (pend : List (Nat × Nat)) :
    ∀ (acc : List (Option FutOutcome) × List Action) (fid : Nat) (d : Msg),
      ((pend.foldl (failStep cause) acc).1)[fid]? = some (some (.success d)) →
      acc.1[fid]? = some (some (.success d)) := by
  induction pend with
  | nil => intro acc fid d h; exact h
  | cons q rest ih =>
    intro acc fid d h
    rw [List.foldl_cons] at h
    have h2 := ih (failStep cause acc q) fid d h
    unfold failStep at h2
    split at h2
    · rename_i heq
      by_cases hpq : q.2 = fid
      · rw [hpq] at heq
        have hlt : fid < acc.1.length := by
          by_contra hge
          rw [List.getElem?_eq_none (by omega)] at heq
          exact absurd heq (by simp)
        rw [hpq, List.getElem?_set_self (by omega)] at h2
        exact absurd h2 (by simp)
      · rwa [List.getElem?_set_ne hpq] at h2
    · exact h2

end RPCClient

namespace RPCClient

theorem foldl_failStep_invariant (cause : PyExc) (pend : List (Nat × Nat))
    (acc : List (Option FutOutcome) × List Action) (fid : Nat)
    (h : acc.1[fid]? = some none ∨ acc.1[fid]? = some (some (.failure cause))) :
    ((pend.foldl (failStep cause) acc).1)[fid]? = some none ∨
      ((pend.foldl (failStep cause) acc).1)[fid]? = some (some (.failure cause)) := by
  induction pend generalizing acc with
  | nil => exact h
  | cons q rest ih =>
    rw [List.foldl_cons]
    refine ih (failStep cause acc q) ?_
    unfold failStep
    split
    · rename_i heq
      by_cases hpq : q.2 = fid
      · right
        have hlt : fid < acc.1.length := by
          by_cases hl : fid < acc.1.length
          · exact hl
          · rw [hpq, List.getElem?_eq_none (by omega)] at heq
            exact absurd heq (by simp)
        rw [hpq, List.getElem?_set_self (by omega)]
      · rwa [List.getElem?_set_ne hpq]
    · exact h

end RPCClient

namespace RPCClient

theorem foldl_failStep_fails (cause : PyExc) (pend : List (Nat × Nat)) :
    ∀ (acc : List (Option FutOutcome) × List Action) (p : Nat × Nat), p ∈ pend →
      (acc.1[p.2]? = some none ∨ acc.1[p.2]? = some (some (.failure cause))) →
      ((pend.foldl (failStep cause) acc).1)[p.2]? = some (some (.failure cause)) := by
  induction pend with
  | nil => intro acc p hp; exact absurd hp (List.not_mem_nil p)
  | cons q rest ih =>
    intro acc p hp h
    rw [List.foldl_cons]
    rcases List.mem_cons.mp hp with hq | hrest
    · subst hq
      have hset : (failStep cause acc p).1[p.2]? = some (some (.failure cause)) := by
        unfold failStep
        split
        · rename_i heq
          have hlt : p.2 < acc.1.length := by
            by_contra hge
            rw [List.getElem?_eq_none (by omega)] at heq
            exact absurd heq (by simp)
          rw [List.getElem?_set_self (by omega)]
        · rename_i hne
          rcases h with h | h
          · exact absurd h hne
          · exact h
      exact foldl_failStep_resolved cause rest _ _ _ hset
    · refine ih (failStep cause acc q) p hrest ?_
      unfold failStep
      split
      · rename_i heq
        by_cases hpq : q.2 = p.2
        · right
          have hlt : p.2 < acc.1.length := by
            by_cases hl : p.2 < acc.1.length
            · exact hl
            · rw [hpq, List.getElem?_eq_none (by omega)] at heq
              exact absurd heq (by simp)
          rw [hpq, List.getElem?_set_self (by omega)]
        · rwa [List.getElem?_set_ne hpq]
      · exact h

end RPCClient

namespace RPCClient

theorem foldl_failStep_log (cause : PyExc) (pend : List (Nat × Nat)) :
    ∀ (acc : List (Option FutOutcome) × List Action) (a : Action),
      a ∈ (pend.foldl (failStep cause) acc).2 →
      a ∈ acc.2 ∨ ∃ fid, a = .failFuture fid cause := by
  induction pend with
  | nil => intro acc a h; exact Or.inl h
  | cons q rest ih =>
    intro acc a h
    rw [List.foldl_cons] at h
    rcases ih (failStep cause acc q) a h with h2 | h2
    · unfold failStep at h2
      split at h2
      · rcases List.mem_append.mp h2 with h3 | h3
        · exact Or.inl h3
        · simp at h3
          exact Or.inr ⟨q.2, h3⟩
      · exact Or.inl h2
    · exact Or.inr h2

end RPCClient

theorem dictGet_append (l1 l2 : List (Msg × Msg)) (k : Msg) :
    dictGet (l1 ++ l2) k = (dictGet l2 k).or (dictGet l1 k) := by
  unfold dictGet
  rw [List.reverse_append, List.find?_append]
  cases l2.reverse.find? (fun p => keyEq p.1 k) <;> simp [Option.or]

/-- C1 — corrected.  A backend reply with `ok=false` makes `_call_once`
raise `RuntimeError(error_message)`, but `call` treats any `RuntimeError`
as retryable: the connection is reset, the client sleeps 5 and retries
once; with `ok=false` on both attempts the caller receives the error —
carrying exactly the backend's `error_message` bytes — after 2 attempts,
one sleep of 5, and 2 resets, not after a single attempt. -/
theorem c1_remote_error_retried {R : Type}
    (validate : Option BaseResponse → Except PyExc R) (um em : List Nat) :
    RPCClient.call validate (.delivers (okFalseResponse um em))
        (.delivers (okFalseResponse um em)) =
      ⟨.error (.runtimeError em), 2, [5], 2⟩ := rfl

/-- C1 counterexample: with the backend replying
`{ok: false, data: {}, error_message: "module not found"}`, the claim's
"no retry, no further connection attempt" is false — the client performs
2 attempts and sleeps 5 between them (the error message itself is carried
exactly). -/
theorem c1_counterexample :
    (RPCClient.call trivialValidate
        (.delivers (okFalseResponse [] moduleNotFoundMsg))
        (.delivers (okFalseResponse [] moduleNotFoundMsg))).attempts = 2 ∧
    (RPCClient.call trivialValidate
        (.delivers (okFalseResponse [] moduleNotFoundMsg))
        (.delivers (okFalseResponse [] moduleNotFoundMsg))).sleeps = [5] ∧
    (RPCClient.call trivialValidate
        (.delivers (okFalseResponse [] moduleNotFoundMsg))
        (.delivers (okFalseResponse [] moduleNotFoundMsg))).result =
      .error (.runtimeError moduleNotFoundMsg) :=
  ⟨rfl, rfl, rfl⟩

/-- C2 — code bug.  Evaluating `call` at transport-fault inputs: a
`ConnectFailed` (`ConnectionRefusedError` from `open_unix_connection`)
propagates after exactly one connection attempt with no delay, because the
except-clause catches only `BrokenPipeError` and `RuntimeError`; a
read-side `TransportClosed` (`IncompleteReadError` surfaced at
`await future`) does the same; and even when every attempt fails with the
caught write-side `BrokenPipeError`, the surfaced failure is that
`BrokenPipeError` — `RuntimeError("RPC server unavailable")` is never
raised, the post-loop raise being unreachable. -/
theorem c2_transport_fault_eval :
    RPCClient.call trivialValidate (.connectRaises .connectionRefused)
        (.connectRaises .connectionRefused) =
      ⟨.error .connectionRefused, 1, [], 0⟩ ∧
    RPCClient.call trivialValidate (.awaitRaises .incompleteRead)
        (.awaitRaises .incompleteRead) =
      ⟨.error .incompleteRead, 1, [], 0⟩ ∧
    RPCClient.call trivialValidate (.sendRaises .brokenPipe)
        (.sendRaises .brokenPipe) =
      ⟨.error .brokenPipe, 2, [5], 2⟩ :=
  ⟨rfl, rfl, rfl⟩

/-- C3 — corrected.  A frame whose payload fails to decode makes the read
loop die with an uncaught exception and no state change:
`_reset_connection` is not called, the socket is not torn down, no pending
entry is failed, and the pending table keeps its entries. -/
theorem c3_malformed_payload_crashes_loop (s : RPCClient.ConnState) (rid : Nat)
    (pay : List Nat) (h : unpackb pay = none) :
    RPCClient.read_loop_step s (.frame rid pay) = (s, [], .crash) := by
  simp [RPCClient.read_loop_step, h]

/-- C3 witness: the one-byte payload `0xc1` (an invalid msgpack tag) at a
state with one pending call. -/
theorem c3_witness :
    RPCClient.read_loop_step oneInFlight (.frame 1 [0xc1]) =
      (oneInFlight, [], .crash) :=
  c3_malformed_payload_crashes_loop oneInFlight 1 [0xc1] rfl

/-- C3 counterexample: at a state with one pending call and an undecodable
payload, the claimed reset does not happen — the pending table is not
swept and the socket is not closed. -/
theorem c3_counterexample :
    unpackb [0xc1] = none ∧
    ¬((RPCClient.read_loop_step oneInFlight (.frame 1 [0xc1])).1.pending = [] ∧
      RPCClient.Action.closeWriter ∈
        (RPCClient.read_loop_step oneInFlight (.frame 1 [0xc1])).2.1) :=
  ⟨rfl, by decide⟩

/-- C9 — corrected.  `get_rpc_client` is a process-wide singleton whose
socket path is fixed by the first invocation: the first call constructs
and stores a client with the requested path; every later call returns that
same stored instance and ignores its socket-path argument. -/
theorem c9_singleton_fixed_path (p1 p2 : List Nat) :
    (get_rpc_client none p1).1.socket_path = p1 ∧
    (get_rpc_client (get_rpc_client none p1).2 p2).1 = (get_rpc_client none p1).1 :=
  ⟨rfl, rfl⟩

/-- C9 counterexample: invoking the accessor with `/a` then `/b` returns a
second client whose socket path is `/a`, not `/b` — distinct socket paths
do not yield independent instances. -/
theorem c9_counterexample :
    (get_rpc_client (get_rpc_client none (asciiBytes ['/', 'a'])).2
        (asciiBytes ['/', 'b'])).1.socket_path ≠ asciiBytes ['/', 'b'] := by
  decide

/-- C10 — corrected.  `connect` has no mutual exclusion.  Run sequentially
(caller A completes before caller B checks), B observes the live connection
and opens nothing: one socket, one reader task.  But when both callers pass
the `self._reader is not None` check before either completes
`open_unix_connection`, each opens a socket and spawns a reader task: two
sockets, two tasks, the second assignment overwriting the first. -/
theorem c10_connect_unguarded :
    (RPCClient.runConnect RPCClient.connectSimInit [false, false, true]).socketsOpened = 1 ∧
    (RPCClient.runConnect RPCClient.connectSimInit [false, false, true]).tasksSpawned = 1 ∧
    (RPCClient.runConnect RPCClient.connectSimInit [false, false, true]).pcB =
      .done false ∧
    (RPCClient.runConnect RPCClient.connectSimInit
        [false, true, false, true]).socketsOpened = 2 ∧
    (RPCClient.runConnect RPCClient.connectSimInit
        [false, true, false, true]).tasksSpawned = 2 :=
  ⟨rfl, rfl, rfl, rfl, rfl⟩

/-- C10 counterexample: under the interleaving check-A, check-B, open-A,
open-B, two sockets are opened — "no duplicate sockets are ever opened"
is false. -/
theorem c10_counterexample :
    ¬(RPCClient.runConnect RPCClient.connectSimInit
        [false, true, false, true]).socketsOpened ≤ 1 := by
  decide

/-- C7 — confirmed.  For every structured payload `P` within the ranges
`msgpack.packb` can serialize, decoding the wire encoding of `P` yields `P`
back: `unpackb (packb P) = some P`, where `packb` is the serializer of
line 169 and `unpackb` the parser applied to inbound frame bodies
(lines 106-109). -/
theorem c7_framing_round_trip (P : Msg) (h : wfMsg P = true) :
    unpackb (packb P) = some P := by
  have hb := needMsg_le_enc P
  have hp := (parse_encode_total (2 * (encodeMsg P).length + 1)).1 P [] h (by omega)
  rw [List.append_nil] at hp
  unfold unpackb packb
  rw [hp]

/-- C7 witness: the round trip evaluated at a concrete nested payload. -/
theorem c7_witness :
    wfMsg roundTripSample = true ∧
      unpackb (packb roundTripSample) = some roundTripSample :=
  ⟨by decide, c7_framing_round_trip roundTripSample (by decide)⟩

/-- C8 counterexample: a mapping with exactly the fields `ok`, `data`,
`error_message` fails to parse — `CallResponse` also requires
`unified_msg_origin` (all four fields are declared `Field(...)`). -/
theorem c8_counterexample :
    parseCallResponse (.map [(keyOk, .bool true), (keyData, .nil),
      (keyErrorMessage, .str [])]) = none := rfl

/-- C8 — corrected.  An inbound mapping containing `ok` (bool),
`unified_msg_origin` (string), `data` (mapping or null) and `error_message`
(string) parses successfully as a `CallResponse`, with a present-but-null
`data` treated as no data, a mapping `data` validated into the field-less
`BaseResponse`, and unknown extra fields ignored; `unified_msg_origin` is
required in addition to the three fields the claim lists. -/
theorem c8_call_response_parsing (b : Bool) (um em : List Nat)
    (dkvs extras : List (Msg × Msg)) :
    parseCallResponse (.map (extras ++ [(keyOk, .bool b),
        (keyUnifiedMsgOrigin, .str um), (keyData, .nil),
        (keyErrorMessage, .str em)])) = some ⟨b, um, none, em⟩ ∧
    parseCallResponse (.map (extras ++ [(keyOk, .bool b),
        (keyUnifiedMsgOrigin, .str um), (keyData, .map dkvs),
        (keyErrorMessage, .str em)])) = some ⟨b, um, some ⟨⟩, em⟩ := by
  refine ⟨?_, ?_⟩
  · have h1 : dictGet (extras ++ [(keyOk, .bool b), (keyUnifiedMsgOrigin, .str um),
        (keyData, .nil), (keyErrorMessage, .str em)]) keyOk = some (.bool b) := by
      rw [dictGet_append]; rfl
    have h2 : dictGet (extras ++ [(keyOk, .bool b), (keyUnifiedMsgOrigin, .str um),
        (keyData, .nil), (keyErrorMessage, .str em)]) keyUnifiedMsgOrigin =
        some (.str um) := by
      rw [dictGet_append]; rfl
    have h3 : dictGet (extras ++ [(keyOk, .bool b), (keyUnifiedMsgOrigin, .str um),
        (keyData, .nil), (keyErrorMessage, .str em)]) keyData = some .nil := by
      rw [dictGet_append]; rfl
    have h4 : dictGet (extras ++ [(keyOk, .bool b), (keyUnifiedMsgOrigin, .str um),
        (keyData, .nil), (keyErrorMessage, .str em)]) keyErrorMessage =
        some (.str em) := by
      rw [dictGet_append]; rfl
    simp [parseCallResponse, h1, h2, h3, h4, asBool, asStr, validateData]
  · have h1 : dictGet (extras ++ [(keyOk, .bool b), (keyUnifiedMsgOrigin, .str um),
        (keyData, .map dkvs), (keyErrorMessage, .str em)]) keyOk = some (.bool b) := by
      rw [dictGet_append]; rfl
    have h2 : dictGet (extras ++ [(keyOk, .bool b), (keyUnifiedMsgOrigin, .str um),
        (keyData, .map dkvs), (keyErrorMessage, .str em)]) keyUnifiedMsgOrigin =
        some (.str um) := by
      rw [dictGet_append]; rfl
    have h3 : dictGet (extras ++ [(keyOk, .bool b), (keyUnifiedMsgOrigin, .str um),
        (keyData, .map dkvs), (keyErrorMessage, .str em)]) keyData =
        some (.map dkvs) := by
      rw [dictGet_append]; rfl
    have h4 : dictGet (extras ++ [(keyOk, .bool b), (keyUnifiedMsgOrigin, .str um),
        (keyData, .map dkvs), (keyErrorMessage, .str em)]) keyErrorMessage =
        some (.str em) := by
      rw [dictGet_append]; rfl
    simp [parseCallResponse, h1, h2, h3, h4, asBool, asStr, validateData]

namespace RPCClient

theorem pendInsert_fresh (pend : List (Nat × Nat)) (k v : Nat)
    (h : ∀ p ∈ pend, p.1 ≠ k) : pendInsert pend k v = pend ++ [(k, v)] := by
  unfold pendInsert
  rw [if_neg]
  simp only [List.any_eq_true, beq_iff_eq]
  rintro ⟨p, hp, hpk⟩
  exact h p hp hpk

end RPCClient

namespace RPCClient

theorem register_step_pending (s : ConnState)
    (h : ∀ p ∈ s.pending, p.1 ≤ s.req_id) :
    (register_step s).pending = s.pending ++ [(s.req_id + 1, s.futures.length)] := by
  unfold register_step nextReqId
  simp only
  rw [pendInsert_fresh]
  intro p hp
  have := h p hp
  omega

end RPCClient

namespace RPCClient

theorem newIds_succ (s : ConnState) (n : Nat) :
    newIds s (n + 1) = (s.req_id + 1) :: newIds (register_step s) n := by
  unfold newIds
  rw [List.range_succ_eq_map, List.map_cons, List.map_map]
  refine congrArg _ ?_
  refine List.map_congr_left ?_
  intro k _
  simp [register_step, nextReqId, Function.comp]
  omega

end RPCClient

namespace RPCClient

theorem registerN_pending_map (n : Nat) : ∀ s : ConnState,
    (∀ p ∈ s.pending, p.1 ≤ s.req_id) →
    (registerN n s).pending.map Prod.fst =
      s.pending.map Prod.fst ++ newIds s n := by
  induction n with
  | zero =>
    intro s _
    simp [registerN, newIds]
  | succ n ih =>
    intro s h
    have hpend := register_step_pending s h
    have h' : ∀ p ∈ (register_step s).pending, p.1 ≤ (register_step s).req_id := by
      intro p hp
      rw [hpend] at hp
      rcases List.mem_append.mp hp with h1 | h1
      · have := h p h1
        simp only [register_step, nextReqId]
        omega
      · simp at h1
        simp only [register_step, nextReqId, h1]
        omega
    have hstep : registerN (n + 1) s = registerN n (register_step s) := rfl
    rw [hstep, ih (register_step s) h', hpend, newIds_succ]
    simp

end RPCClient

/-- C4 counterexample: at `_req_id = 2^32 - 1` the next allocated
correlation ID is `2^32`: allocation does not wrap at the 32-bit width
boundary (the allocator modelled from the spec's words returns 0 there),
and the resulting ID can no longer be encoded by
`req_id.to_bytes(4, "big")`, which raises `OverflowError`. -/
theorem c4_counterexample :
    RPCClient.nextReqId atWidthBoundary ≠ RPCClient.nextIdWrapSpec atWidthBoundary ∧
    RPCClient.nextReqId atWidthBoundary = 4294967296 ∧
    to_bytes_be 4 (RPCClient.nextReqId atWidthBoundary) = none :=
  ⟨by decide, rfl, rfl⟩

/-- C4 — corrected.  Correlation IDs are allocated by a plain increment
with no wrap and no explicit pending-table guard; they are monotonically
increasing, and whenever every pending ID is at most `_req_id` (the
invariant the increment maintains), the `n` IDs handed out by `n` register
steps extend the pending table in order, are pairwise distinct, and collide
with no previously pending ID. -/
theorem c4_ids_monotone_fresh_distinct (s : RPCClient.ConnState) (n : Nat)
    (h : ∀ p ∈ s.pending, p.1 ≤ s.req_id) :
    (RPCClient.registerN n s).pending.map Prod.fst =
        s.pending.map Prod.fst ++ RPCClient.newIds s n ∧
    List.Pairwise (· < ·) (RPCClient.newIds s n) ∧
    ∀ i ∈ RPCClient.newIds s n, ∀ p ∈ s.pending, p.1 ≠ i := by
  refine ⟨RPCClient.registerN_pending_map n s h, ?_, ?_⟩
  · unfold RPCClient.newIds
    refine List.Pairwise.map _ (fun a b hab => ?_) (List.pairwise_lt_range n)
    omega
  · intro i hi p hp
    simp only [RPCClient.newIds, List.mem_map, List.mem_range] at hi
    obtain ⟨k, _, rfl⟩ := hi
    have := h p hp
    omega

/-- C4 witness: two register steps from a client with two in-flight calls
whose IDs 2 and 3 are at most `_req_id = 3`. -/
theorem c4_witness :
    (RPCClient.registerN 2 twoInFlightAt3).pending.map Prod.fst =
        twoInFlightAt3.pending.map Prod.fst ++ RPCClient.newIds twoInFlightAt3 2 ∧
    List.Pairwise (· < ·) (RPCClient.newIds twoInFlightAt3 2) ∧
    ∀ i ∈ RPCClient.newIds twoInFlightAt3 2, ∀ p ∈ twoInFlightAt3.pending, p.1 ≠ i :=
  c4_ids_monotone_fresh_distinct twoInFlightAt3 2 (by decide)

/-- C5 — corrected.  `_reset_connection(c)` on a state whose pending entries
reference not-done futures fails each of them with `c`, empties the pending
table, closes the socket (when a writer exists), resets the reader, writer
and reader-task references — but never cancels the reader task: only the
reference is dropped, the cancellation flag is untouched and no cancel
action is performed. -/
theorem c5_reset_sweeps_without_cancel (s : RPCClient.ConnState) (c : PyExc)
    (h : ∀ p ∈ s.pending, s.futures[p.2]? = some none) :
    (∀ p ∈ s.pending,
        (RPCClient.reset_connection (some c) s).1.futures[p.2]? =
          some (some (.failure c))) ∧
    (RPCClient.reset_connection (some c) s).1.pending = [] ∧
    (s.writer = true →
      RPCClient.Action.closeWriter ∈ (RPCClient.reset_connection (some c) s).2) ∧
    (RPCClient.reset_connection (some c) s).1.reader = false ∧
    (RPCClient.reset_connection (some c) s).1.writer = false ∧
    (RPCClient.reset_connection (some c) s).1.readerTask = false ∧
    (RPCClient.reset_connection (some c) s).1.readerTaskCancelled =
      s.readerTaskCancelled ∧
    RPCClient.Action.cancelReaderTask ∉ (RPCClient.reset_connection (some c) s).2 := by
  refine ⟨?_, rfl, ?_, rfl, rfl, rfl, rfl, ?_⟩
  · intro p hp
    exact RPCClient.foldl_failStep_fails c s.pending (s.futures, []) p hp
      (Or.inl (h p hp))
  · intro hw
    simp [RPCClient.reset_connection, hw]
  · intro hmem
    rcases List.mem_append.mp hmem with h1 | h1
    · rw [show (if s.writer then [RPCClient.Action.closeWriter] else []) =
          (if s.writer then [RPCClient.Action.closeWriter] else []) from rfl] at h1
      cases hsw : s.writer <;> rw [hsw] at h1 <;> simp at h1
    · rcases RPCClient.foldl_failStep_log _ s.pending (s.futures, []) _ h1 with h2 | h2
      · simp at h2
      · obtain ⟨fid, h3⟩ := h2
        simp at h3

/-- C5 witness: reset with cause `IncompleteReadError` at a connected state
with two in-flight calls. -/
theorem c5_witness :
    (∀ p ∈ twoInFlight.pending,
        (RPCClient.reset_connection (some .incompleteRead) twoInFlight).1.futures[p.2]? =
          some (some (.failure .incompleteRead))) ∧
    (RPCClient.reset_connection (some .incompleteRead) twoInFlight).1.pending = [] ∧
    (twoInFlight.writer = true →
      RPCClient.Action.closeWriter ∈
        (RPCClient.reset_connection (some .incompleteRead) twoInFlight).2) ∧
    (RPCClient.reset_connection (some .incompleteRead) twoInFlight).1.reader = false ∧
    (RPCClient.reset_connection (some .incompleteRead) twoInFlight).1.writer = false ∧
    (RPCClient.reset_connection (some .incompleteRead) twoInFlight).1.readerTask = false ∧
    (RPCClient.reset_connection (some .incompleteRead) twoInFlight).1.readerTaskCancelled =
      twoInFlight.readerTaskCancelled ∧
    RPCClient.Action.cancelReaderTask ∉
      (RPCClient.reset_connection (some .incompleteRead) twoInFlight).2 :=
  c5_reset_sweeps_without_cancel twoInFlight .incompleteRead (by
    intro p hp
    simp only [twoInFlight, List.mem_cons, List.not_mem_nil, or_false] at hp
    rcases hp with rfl | rfl <;> rfl)

/-- C5 counterexample: resetting a connection whose reader task is running
performs no cancellation — "cancels the background reader task" is false
(the reference is merely dropped). -/
theorem c5_counterexample :
    twoInFlight.readerTask = true ∧
    RPCClient.Action.cancelReaderTask ∉
      (RPCClient.reset_connection (some .incompleteRead) twoInFlight).2 :=
  ⟨rfl, by decide⟩

/-- C6 — confirmed.  Across every pending-table operation (register step,
read-loop iteration, reset): a future already resolved keeps its value
(resolution happens at most once; a second resolution attempt is a no-op
thanks to the `not fut.done()` guards); a future that goes from not-done
to a success value does so only under a read-loop frame delivery; and a
future that goes from not-done to a failure does so only under the read
loop's eof handler or a reset — the only two paths that call
`_reset_connection`. -/
theorem c6_at_most_one_resolution (op : RPCClient.PendingOp)
    (s : RPCClient.ConnState) (fid : Nat) (v : FutOutcome) (d : Msg) (e : PyExc) :
    (s.futures[fid]? = some (some v) →
      (RPCClient.applyOp op s).futures[fid]? = some (some v)) ∧
    (s.futures[fid]? = some none →
      (RPCClient.applyOp op s).futures[fid]? = some (some (.success d)) →
      ∃ rid pay, op = .readEvent (.frame rid pay)) ∧
    (s.futures[fid]? = some none →
      (RPCClient.applyOp op s).futures[fid]? = some (some (.failure e)) →
      op = .readEvent .eof ∨ ∃ c, op = .resetCall c) := by
  cases op with
  | register =>
    have hfut : (RPCClient.applyOp .register s).futures = s.futures ++ [none] := rfl
    refine ⟨?_, ?_, ?_⟩
    · intro h1
      have hlt : fid < s.futures.length := by
        by_contra hge
        rw [List.getElem?_eq_none (by omega)] at h1
        exact absurd h1 (by simp)
      rw [hfut, List.getElem?_append_left hlt]
      exact h1
    · intro h1 h2
      exfalso
      have hlt : fid < s.futures.length := by
        by_contra hge
        rw [List.getElem?_eq_none (by omega)] at h1
        exact absurd h1 (by simp)
      rw [hfut, List.getElem?_append_left hlt, h1] at h2
      exact absurd h2 (by simp)
    · intro h1 h2
      exfalso
      have hlt : fid < s.futures.length := by
        by_contra hge
        rw [List.getElem?_eq_none (by omega)] at h1
        exact absurd h1 (by simp)
      rw [hfut, List.getElem?_append_left hlt, h1] at h2
      exact absurd h2 (by simp)
  | readEvent ev =>
    cases ev with
    | frame rid pay =>
      refine ⟨?_, fun _ _ => ⟨rid, pay, rfl⟩, ?_⟩
      · intro h1
        show (RPCClient.read_loop_step s (.frame rid pay)).1.futures[fid]? = _
        simp only [RPCClient.read_loop_step]
        split
        · exact h1
        · rename_i d' heq
          split
          · exact h1
          · rename_i fid' heq2
            split
            · rename_i heq3
              have heq3' : s.futures[fid']? = some none := heq3
              have hne : fid' ≠ fid := by
                intro hEq
                rw [hEq, h1] at heq3'
                exact absurd heq3' (by simp)
              show (s.futures.set fid' (some (.success d')))[fid]? = _
              rw [List.getElem?_set_ne hne]
              exact h1
            · exact h1
      · intro h1 h2
        exfalso
        have h2' : (RPCClient.read_loop_step s (.frame rid pay)).1.futures[fid]? =
            some (some (.failure e)) := h2
        simp only [RPCClient.read_loop_step] at h2'
        split at h2'
        · have h3 : s.futures[fid]? = some (some (.failure e)) := h2'
          rw [h1] at h3
          exact absurd h3 (by simp)
        · rename_i d' heq
          split at h2'
          · have h3 : s.futures[fid]? = some (some (.failure e)) := h2'
            rw [h1] at h3
            exact absurd h3 (by simp)
          · rename_i fid' heq2
            split at h2'
            · rename_i heq3
              have heq3' : s.futures[fid']? = some none := heq3
              have h3 : (s.futures.set fid' (some (.success d')))[fid]? =
                  some (some (.failure e)) := h2'
              by_cases hEq : fid' = fid
              · subst hEq
                have hlt : fid' < s.futures.length := by
                  by_contra hge
                  rw [List.getElem?_eq_none (by omega)] at heq3'
                  exact absurd heq3' (by simp)
                rw [List.getElem?_set_self (by omega)] at h3
                exact absurd h3 (by simp)
              · rw [List.getElem?_set_ne hEq, h1] at h3
                exact absurd h3 (by simp)
            · have h3 : s.futures[fid]? = some (some (.failure e)) := h2'
              rw [h1] at h3
              exact absurd h3 (by simp)
    | eof =>
      refine ⟨?_, ?_, fun _ _ => Or.inl rfl⟩
      · intro h1
        exact RPCClient.foldl_failStep_resolved _ s.pending (s.futures, []) fid v h1
      · intro h1 h2
        exfalso
        have h3 := RPCClient.foldl_failStep_no_success
          ((some PyExc.incompleteRead).getD (.runtimeError RPCClient.connectionResetMsg))
          s.pending (s.futures, []) fid d h2
        rw [h1] at h3
        exact absurd h3 (by simp)
  | resetCall c =>
    refine ⟨?_, ?_, fun _ _ => Or.inr ⟨c, rfl⟩⟩
    · intro h1
      exact RPCClient.foldl_failStep_resolved _ s.pending (s.futures, []) fid v h1
    · intro h1 h2
      exfalso
      have h3 := RPCClient.foldl_failStep_no_success
        ((some c).getD (.runtimeError RPCClient.connectionResetMsg))
        s.pending (s.futures, []) fid d h2
      rw [h1] at h3
      exact absurd h3 (by simp)

/-- C6 witness: each conjunct applied at a concrete operation — a register
step preserving an already-resolved future, a frame delivery as the origin
of a success, and a reset as the origin of a failure. -/
theorem c6_witness :
    (RPCClient.applyOp .register resolvedOne).futures[0]? =
        some (some (.failure .brokenPipe)) ∧
    (∃ rid pay, RPCClient.PendingOp.readEvent (.frame 1 [0xc0]) =
        .readEvent (.frame rid pay)) ∧
    (RPCClient.PendingOp.resetCall PyExc.brokenPipe = .readEvent .eof ∨
      ∃ c, RPCClient.PendingOp.resetCall PyExc.brokenPipe = .resetCall c) :=
  ⟨(c6_at_most_one_resolution .register resolvedOne 0 (.failure .brokenPipe)
      .nil .brokenPipe).1 rfl,
   (c6_at_most_one_resolution (.readEvent (.frame 1 [0xc0])) oneInFlight 0
      (.failure .brokenPipe) .nil .brokenPipe).2.1 rfl rfl,
   (c6_at_most_one_resolution (.resetCall .brokenPipe) oneInFlight 0
      (.failure .brokenPipe) .nil .brokenPipe).2.2 rfl rfl⟩
